import Mathlib

/-!
Verification of the wgputris game-logic engine.

Shallow embedding of `src/tetromino.rs`, `src/game.rs` and the board
component into Lean 4.  Rust `i32` values are modelled as `Int`
(casts to `usize` are made explicit, modulo `2^64`), `usize` as `Nat`,
`f32`/`f64` as `ℚ` (all float literals in the source are exact decimals,
and the timing claims are about control flow, not rounding), and the
per-frame elapsed-time measurement as an explicit `ℚ` parameter of
`process_game_loop`.  Panics (`unwrap`) are modelled as `Option.none`.
The randomness source is modelled as an explicit list of pending draws.

The file `src/gameboard.rs` is declared by the crate root but is not part
of the sources; the `Gameboard` component is modelled from the spec
(each such definition is marked `Modelled from the spec:`).
-/

namespace Wgputris

/-- `BLOCK_SIZE` from main.rs. -/
def BLOCK_SIZE : Nat := 12

/-- `GAMEBOARD_OFFSET` from main.rs. -/
def GAMEBOARD_OFFSET : Nat × Nat := (15, 1)

/-- `GAMEBOARD_WIDTH` from main.rs. -/
def GAMEBOARD_WIDTH : Nat := 10

/-- `GAMEBOARD_HEIGHT` from main.rs. -/
def GAMEBOARD_HEIGHT : Nat := 20

/-- Modulus of Rust's 64-bit `usize`. -/
def USIZE_MOD : Nat := 2 ^ 64

/-- Rust's `as usize` cast applied to an `i32` value (modelled as `Int`):
the value modulo `2^64` (sign extension then reinterpretation). -/
def usizeOfI32 (n : Int) : Nat := (n % (USIZE_MOD : Int)).toNat

/-- Rust `usize` subtraction in release mode: wraps modulo `2^64`. -/
def usizeSub (a b : Nat) : Nat := (a % USIZE_MOD + USIZE_MOD - b % USIZE_MOD) % USIZE_MOD

/-- An RGBA colour, the `[f32; 4]` of the source with exact rational
components. -/
structure Color where
  r : ℚ
  g : ℚ
  b : ℚ
  a : ℚ
deriving DecidableEq

/-- `Vertex` from main.rs: position (3 floats), texture coordinates
(2 floats), RGBA colour. -/
structure Vertex where
  position : ℚ × ℚ × ℚ
  tex_coords : ℚ × ℚ
  color : Color
deriving DecidableEq

/-- The `block_locs: [(i32, i32); 4]` array of a tetromino, with its four
entries as named fields. -/
structure BlockLocs where
  l0 : Int × Int
  l1 : Int × Int
  l2 : Int × Int
  l3 : Int × Int
deriving DecidableEq

/-- `Tetromino` from tetromino.rs. -/
structure Tetromino where
  x : Int
  y : Int
  color : Color
  block_locs : BlockLocs
deriving DecidableEq

namespace Tetromino

/-- `Tetromino::new_o`. -/
def new_o : Tetromino :=
  { x := 0, y := 0, color := ⟨1, 1, 0, 1⟩,
    block_locs := ⟨(0, 1), (1, 1), (0, 0), (1, 0)⟩ }

/-- `Tetromino::new_i`. -/
def new_i : Tetromino :=
  { x := 0, y := 0, color := ⟨0, 1, 1, 1⟩,
    block_locs := ⟨(0, 0), (0, 1), (0, 2), (0, -1)⟩ }

/-- `Tetromino::new_s`. -/
def new_s : Tetromino :=
  { x := 0, y := 0, color := ⟨1, 0, 0, 1⟩,
    block_locs := ⟨(0, 1), (-1, 1), (0, 0), (1, 0)⟩ }

/-- `Tetromino::new_z`. -/
def new_z : Tetromino :=
  { x := 0, y := 0, color := ⟨0, 1, 0, 1⟩,
    block_locs := ⟨(0, 0), (0, 1), (-1, 0), (1, 1)⟩ }

/-- `Tetromino::new_l`. -/
def new_l : Tetromino :=
  { x := 0, y := 0, color := ⟨1, 11/20, 0, 1⟩,
    block_locs := ⟨(0, 1), (0, 0), (0, -1), (-1, -1)⟩ }

/-- `Tetromino::new_j`. -/
def new_j : Tetromino :=
  { x := 0, y := 0, color := ⟨1, 0, 1, 1⟩,
    block_locs := ⟨(0, 1), (0, 0), (0, -1), (1, -1)⟩ }

/-- `Tetromino::new_t`. -/
def new_t : Tetromino :=
  { x := 0, y := 0, color := ⟨0, 0, 1, 1⟩,
    block_locs := ⟨(1, 0), (0, 0), (-1, 0), (0, -1)⟩ }

/-- `Tetromino::new_random`, with the random draw `rng.gen_range(0, 7)`
made an explicit argument. -/
def new_random (rand_num : Nat) : Tetromino :=
  match rand_num with
  | 1 => new_o
  | 2 => new_i
  | 3 => new_s
  | 4 => new_z
  | 5 => new_l
  | 6 => new_j
  | _ => new_t

/-- `Tetromino::set_pos`. -/
def set_pos (t : Tetromino) (x y : Int) : Tetromino :=
  { t with x := x, y := y }

/-- `Tetromino::add_pos`. -/
def add_pos (t : Tetromino) (x y : Int) : Tetromino :=
  { t with x := t.x + x, y := t.y + y }

/-- `Tetromino::rotate_ccw`: each `block_locs[i] = (l.1, 0 - l.0)`. -/
def rotate_ccw (t : Tetromino) : Tetromino :=
  { t with block_locs :=
    ⟨(t.block_locs.l0.2, 0 - t.block_locs.l0.1),
     (t.block_locs.l1.2, 0 - t.block_locs.l1.1),
     (t.block_locs.l2.2, 0 - t.block_locs.l2.1),
     (t.block_locs.l3.2, 0 - t.block_locs.l3.1)⟩ }

/-- `Tetromino::rotate_cw`: each `block_locs[i] = (0 - l.1, l.0)`. -/
def rotate_cw (t : Tetromino) : Tetromino :=
  { t with block_locs :=
    ⟨(0 - t.block_locs.l0.2, t.block_locs.l0.1),
     (0 - t.block_locs.l1.2, t.block_locs.l1.1),
     (0 - t.block_locs.l2.2, t.block_locs.l2.1),
     (0 - t.block_locs.l3.2, t.block_locs.l3.1)⟩ }

/-- The mapping of one block location performed by
`Tetromino::get_mapped_locs`: `(l + pos) as usize - GAMEBOARD_OFFSET`
(cast first, then wrapping `usize` subtraction). -/
def mapLoc (t : Tetromino) (l : Int × Int) : Nat × Nat :=
  (usizeSub (usizeOfI32 (l.1 + t.x)) GAMEBOARD_OFFSET.1,
   usizeSub (usizeOfI32 (l.2 + t.y)) GAMEBOARD_OFFSET.2)

/-- `Tetromino::get_mapped_locs`, as the 4-element list of board-local
coordinates in array order. -/
def get_mapped_locs (t : Tetromino) : List (Nat × Nat) :=
  [t.mapLoc t.block_locs.l0, t.mapLoc t.block_locs.l1,
   t.mapLoc t.block_locs.l2, t.mapLoc t.block_locs.l3]

/-- `Tetromino::as_blocks`: screen position of each block,
`(l + pos) * BLOCK_SIZE` componentwise, as exact rationals. -/
def as_blocks (t : Tetromino) : List (ℚ × ℚ) :=
  [(((t.block_locs.l0.1 + t.x : Int) : ℚ) * (BLOCK_SIZE : ℚ),
    ((t.block_locs.l0.2 + t.y : Int) : ℚ) * (BLOCK_SIZE : ℚ)),
   (((t.block_locs.l1.1 + t.x : Int) : ℚ) * (BLOCK_SIZE : ℚ),
    ((t.block_locs.l1.2 + t.y : Int) : ℚ) * (BLOCK_SIZE : ℚ)),
   (((t.block_locs.l2.1 + t.x : Int) : ℚ) * (BLOCK_SIZE : ℚ),
    ((t.block_locs.l2.2 + t.y : Int) : ℚ) * (BLOCK_SIZE : ℚ)),
   (((t.block_locs.l3.1 + t.x : Int) : ℚ) * (BLOCK_SIZE : ℚ),
    ((t.block_locs.l3.2 + t.y : Int) : ℚ) * (BLOCK_SIZE : ℚ))]

/-- The six vertices (two triangles) one block contributes in
`Tetromino::as_vertices`. -/
def blockQuad (b : ℚ × ℚ) (c : Color) : List Vertex :=
  [⟨(b.1, b.2, 0), (0, 0), c⟩,
   ⟨(b.1 + (BLOCK_SIZE : ℚ), b.2, 0), (1, 0), c⟩,
   ⟨(b.1 + (BLOCK_SIZE : ℚ), b.2 + (BLOCK_SIZE : ℚ), 0), (1, 1), c⟩,
   ⟨(b.1 + (BLOCK_SIZE : ℚ), b.2 + (BLOCK_SIZE : ℚ), 0), (1, 1), c⟩,
   ⟨(b.1, b.2 + (BLOCK_SIZE : ℚ), 0), (0, 1), c⟩,
   ⟨(b.1, b.2, 0), (0, 0), c⟩]

/-- `Tetromino::as_vertices`: six vertices per block, 24 in total, in
block order. -/
def as_vertices (t : Tetromino) : List Vertex :=
  (t.as_blocks.map (fun b => blockQuad b t.color)).flatten

end Tetromino

/-- Modelled from the spec: error type of the board's `set_cell`
("fails with an out-of-bounds error"). -/
inductive BoardError where
  | outOfBounds
deriving DecidableEq

/-- Modelled from the spec: the `Gameboard` of the missing
`src/gameboard.rs` — "a fixed-width × fixed-height grid (10 × 20 cells)
where each cell holds either empty or an RGBA color".  Rows are listed
top to bottom; cell `(x, y)` is column `x` of row `y`.  All access goes
through `getCell`, which realises the fixed 10 × 20 index space. -/
structure Gameboard where
  cells : List (List (Option Color))
deriving DecidableEq

namespace Gameboard

/-- Modelled from the spec: a freshly constructed board has every
in-bounds cell empty. -/
def new : Gameboard :=
  ⟨List.replicate GAMEBOARD_HEIGHT (List.replicate GAMEBOARD_WIDTH none)⟩

/-- Modelled from the spec: the content of cell `(x, y)`; any index
outside the stored grid reads as empty. -/
def getCell (gb : Gameboard) (x y : Nat) : Option Color :=
  (gb.cells.getD y []).getD x none

/-- Modelled from the spec: `spawn_location()` "returns the fixed
grid-relative coordinate (in absolute/offset terms) where a newly
spawned piece's position should be set; constant per board
configuration".  The spec fixes no numeric value; the model places the
spawn near the top of the board, horizontally centred and one row below
the top edge (so that every one of the seven shapes, whose block offsets
span `-1 ≤ dy ≤ 2`, starts fully inside the grid):
`(GAMEBOARD_OFFSET.1 + GAMEBOARD_WIDTH / 2, GAMEBOARD_OFFSET.2 + 1)`. -/
def get_spawn_loc (_gb : Gameboard) : Nat × Nat :=
  (GAMEBOARD_OFFSET.1 + GAMEBOARD_WIDTH / 2, GAMEBOARD_OFFSET.2 + 1)

/-- Modelled from the spec: `are_cells_empty` — "true iff every given
coordinate maps to an empty cell". -/
def are_locs_empty (gb : Gameboard) (locs : List (Nat × Nat)) : Bool :=
  locs.all (fun p => gb.getCell p.1 p.2 == none)

/-- Modelled from the spec: `set_cell(x, y, color)` — "sets a cell to the
given color (or empty); fails with an out-of-bounds error if
`x >= width` or `y >= height`". -/
def set_content (gb : Gameboard) (x y : Nat) (c : Option Color) :
    Except BoardError Gameboard :=
  if x < GAMEBOARD_WIDTH ∧ y < GAMEBOARD_HEIGHT then
    .ok ⟨gb.cells.set y ((gb.cells.getD y []).set x c)⟩
  else
    .error .outOfBounds

/-- The grid re-read through `getCell`, row by row, as the fixed
`GAMEBOARD_HEIGHT` list of `GAMEBOARD_WIDTH`-cell rows. -/
def rows (gb : Gameboard) : List (List (Option Color)) :=
  (List.range GAMEBOARD_HEIGHT).map
    (fun y => (List.range GAMEBOARD_WIDTH).map (fun x => gb.getCell x y))

/-- Modelled from the spec: `clear_completed_rows()` — "a row is complete
when all cells in it are non-empty.  All complete rows are removed
simultaneously: remaining rows below each gap shift down to fill it, and
newly empty rows are inserted at the top.  Returns the number of rows
removed". -/
def remove_completed_rows (gb : Gameboard) : Gameboard × Nat :=
  let kept := gb.rows.filter (fun row => ¬ row.all (fun c => c.isSome))
  let n := GAMEBOARD_HEIGHT - kept.length
  (⟨List.replicate n (List.replicate GAMEBOARD_WIDTH none) ++ kept⟩, n)

/-- Modelled from the spec: the six vertices one board cell contributes;
an empty cell carries the "no color" sentinel (fully transparent). -/
def cellQuad (x y : Nat) (c : Option Color) : List Vertex :=
  Tetromino.blockQuad
    (((GAMEBOARD_OFFSET.1 + x : Nat) : ℚ) * (BLOCK_SIZE : ℚ),
     ((GAMEBOARD_OFFSET.2 + y : Nat) : ℚ) * (BLOCK_SIZE : ℚ))
    (c.getD ⟨0, 0, 0, 0⟩)

/-- Modelled from the spec: the board's vertex emission — "one quad per
occupied board cell in a fixed traversal order covering all grid cells
(empty cells still emit a quad)", `width × height` quads, 6 vertices
each. -/
def as_vertices (gb : Gameboard) : List Vertex :=
  ((List.range GAMEBOARD_HEIGHT).map
    (fun y => ((List.range GAMEBOARD_WIDTH).map
      (fun x => cellQuad x y (gb.getCell x y))).flatten)).flatten

end Gameboard

namespace Tetromino

/-- One write of `Tetromino::lock_to_gameboard`: the piece's colour at
`(l + pos - GAMEBOARD_OFFSET) as usize` (the subtraction is done in
`i32`, then cast); the `.unwrap()` on `set_content`'s result is modelled
as `Option`, `none` standing for the panic. -/
def lockWrite (t : Tetromino) (b : Gameboard) (l : Int × Int) : Option Gameboard :=
  (b.set_content (usizeOfI32 (l.1 + t.x - (GAMEBOARD_OFFSET.1 : Int)))
    (usizeOfI32 (l.2 + t.y - (GAMEBOARD_OFFSET.2 : Int)))
    (some t.color)).toOption

/-- `Tetromino::lock_to_gameboard`: the four sequential writes of the
`for` loop, each `.unwrap()`ed (`none` = panic). -/
def lock_to_gameboard (t : Tetromino) (gb : Gameboard) : Option Gameboard :=
  (((t.lockWrite gb t.block_locs.l0).bind
    (fun b0 => t.lockWrite b0 t.block_locs.l1)).bind
      (fun b1 => t.lockWrite b1 t.block_locs.l2)).bind
        (fun b2 => t.lockWrite b2 t.block_locs.l3)

end Tetromino

/-- The keys `process_input` distinguishes (`VirtualKeyCode`). -/
inductive Key where
  | left
  | right
  | down
  | z
  | x
  | other
deriving DecidableEq

/-- `Game` from game.rs.  The `ThreadRng` is modelled as the list of
pending `gen_range(0, 7)` draws, and the `Instant` pair is dropped in
favour of an explicit elapsed-time argument to `process_game_loop`. -/
structure Game where
  score : Nat
  board : Gameboard
  next_shape : Tetromino
  current_shape : Tetromino
  next_shape_offset : Nat × Nat
  seconds_per_tick : ℚ
  seconds_since_tick : ℚ
  shape_placed : Bool
  rng : List Nat
deriving DecidableEq

namespace Game

/-- `Game::new`, with the two random draws taken from the head of the
given list. -/
def new (draws : List Nat) : Game :=
  let gameboard := Gameboard.new
  let next_shape := (Tetromino.new_random (draws.getD 0 0)).set_pos 30 7
  let spawn_loc := gameboard.get_spawn_loc
  let current_shape :=
    (Tetromino.new_random (draws.getD 1 0)).set_pos (spawn_loc.1 : Int) (spawn_loc.2 : Int)
  { score := 0
    board := gameboard
    next_shape := next_shape
    current_shape := current_shape
    next_shape_offset := (30, 7)
    seconds_per_tick := 1/4
    seconds_since_tick := 0
    shape_placed := false
    rng := draws.drop 2 }

/-- `Game::is_shape_within_borders`: every mapped location has
`x < GAMEBOARD_WIDTH` and `y < GAMEBOARD_HEIGHT`. -/
def is_shape_within_borders (_g : Game) (shape : Tetromino) : Bool :=
  shape.get_mapped_locs.all
    (fun p => p.1 < GAMEBOARD_WIDTH && p.2 < GAMEBOARD_HEIGHT)

/-- `Game::does_shape_intersect_locked_blocks`. -/
def does_shape_intersect_locked_blocks (g : Game) (shape : Tetromino) : Bool :=
  ! g.board.are_locs_empty shape.get_mapped_locs

/-- `Game::is_position_legal`: within borders and not intersecting. -/
def is_position_legal (g : Game) (shape : Tetromino) : Bool :=
  g.is_shape_within_borders shape && ! g.does_shape_intersect_locked_blocks shape

/-- `Game::attempt_move`: transform a cloned candidate, commit to the
real current piece only when the candidate is legal. -/
def attempt_move (g : Game) (x y : Int) : Game × Bool :=
  let temp := g.current_shape.add_pos x y
  if g.is_position_legal temp then
    ({ g with current_shape := g.current_shape.add_pos x y }, true)
  else
    (g, false)

/-- `Game::attempt_rotate_cw`. -/
def attempt_rotate_cw (g : Game) : Game × Bool :=
  let temp := g.current_shape.rotate_cw
  if g.is_position_legal temp then
    ({ g with current_shape := g.current_shape.rotate_cw }, true)
  else
    (g, false)

/-- `Game::attempt_rotate_ccw`. -/
def attempt_rotate_ccw (g : Game) : Game × Bool :=
  let temp := g.current_shape.rotate_ccw
  if g.is_position_legal temp then
    ({ g with current_shape := g.current_shape.rotate_ccw }, true)
  else
    (g, false)

/-- `Game::set_score`. -/
def set_score (g : Game) (score : Nat) : Game :=
  { g with score := score }

/-- `Game::get_score`. -/
def get_score (g : Game) : Nat :=
  g.score

/-- `Game::spawn_next_shape`: moves `next_shape` into `current_shape`,
repositions it to the spawn location, then reports legality. -/
def spawn_next_shape (g : Game) : Game × Bool :=
  let spawn_loc := g.board.get_spawn_loc
  let g' := { g with current_shape :=
    g.next_shape.set_pos (spawn_loc.1 : Int) (spawn_loc.2 : Int) }
  (g', g'.is_position_legal g'.current_shape)

/-- `Game::pick_next_shape`: draws a random shape and positions it at the
preview offset. -/
def pick_next_shape (g : Game) : Game :=
  { g with
    next_shape := (Tetromino.new_random (g.rng.getD 0 0)).set_pos
      (g.next_shape_offset.1 : Int) (g.next_shape_offset.2 : Int)
    rng := g.rng.tail }

/-- `Game::tick`: move the current piece down one unit; when blocked,
lock it into the board (`none` models the `unwrap` panic) and mark it
placed. -/
def tick (g : Game) : Option Game :=
  let r := g.attempt_move 0 1
  if r.2 then
    some r.1
  else
    (g.current_shape.lock_to_gameboard g.board).map
      (fun b => { g with board := b, shape_placed := true })

/-- Termination measure for `Game::drop`: distance of the first block's
board-local row (as computed with the wrapping `usize` arithmetic of
`get_mapped_locs`) from the bottom of the board. -/
def dropMeasure (g : Game) : Nat :=
  GAMEBOARD_HEIGHT - usizeOfI32 (g.current_shape.block_locs.l0.2 + g.current_shape.y)

theorem usizeOfI32_lt (v : Int) : usizeOfI32 v < USIZE_MOD := by
  unfold usizeOfI32 USIZE_MOD
  omega

theorem usizeOfI32_succ (v : Int) :
    usizeOfI32 (v + 1) = (usizeOfI32 v + 1) % USIZE_MOD := by
  unfold usizeOfI32 USIZE_MOD
  omega

theorem usizeSub_one_lt_iff (n : Nat) (h : n < USIZE_MOD) :
    (usizeSub n 1 < GAMEBOARD_HEIGHT ↔ 1 ≤ n ∧ n ≤ GAMEBOARD_HEIGHT) := by
  unfold usizeSub USIZE_MOD GAMEBOARD_HEIGHT at *
  omega

/-- `attempt_move` characterised without the intermediate clone. -/
theorem attempt_move_eq (g : Game) (x y : Int) :
    g.attempt_move x y =
      if g.is_position_legal (g.current_shape.add_pos x y) then
        ({ g with current_shape := g.current_shape.add_pos x y }, true)
      else (g, false) := rfl

theorem wrap_row_step (e : Nat) (he : e < USIZE_MOD)
    (h1 : 1 ≤ (e + 1) % USIZE_MOD) (h2 : (e + 1) % USIZE_MOD ≤ GAMEBOARD_HEIGHT) :
    GAMEBOARD_HEIGHT - (e + 1) % USIZE_MOD < GAMEBOARD_HEIGHT - e := by
  unfold USIZE_MOD GAMEBOARD_HEIGHT at *
  omega

/-- A successful downward move strictly decreases `dropMeasure`. -/
theorem attempt_move_down_measure (g : Game) (h : (g.attempt_move 0 1).2 = true) :
    dropMeasure (g.attempt_move 0 1).1 < dropMeasure g := by
  rw [attempt_move_eq] at h ⊢
  by_cases hl : g.is_position_legal (g.current_shape.add_pos 0 1) = true
  · simp only [hl, if_true]
    have hb : g.is_shape_within_borders (g.current_shape.add_pos 0 1) = true := by
      unfold is_position_legal at hl
      exact (Bool.and_eq_true _ _ |>.mp hl).1
    unfold is_shape_within_borders Tetromino.get_mapped_locs at hb
    simp only [List.all_cons, List.all_nil, Bool.and_eq_true, decide_eq_true_eq,
      Bool.and_true] at hb
    have h0 : usizeSub
        (usizeOfI32 (g.current_shape.block_locs.l0.2 + (g.current_shape.y + 1))) 1 <
        GAMEBOARD_HEIGHT := hb.1.2
    clear hb hl h
    have hy : g.current_shape.block_locs.l0.2 + (g.current_shape.y + 1) =
        (g.current_shape.block_locs.l0.2 + g.current_shape.y) + 1 := by ring
    rw [hy, usizeOfI32_succ] at h0
    have hsub := (usizeSub_one_lt_iff _ (Nat.mod_lt _ (by norm_num [USIZE_MOD]))).mp h0
    show GAMEBOARD_HEIGHT -
        usizeOfI32 (g.current_shape.block_locs.l0.2 + (g.current_shape.y + 1)) <
      GAMEBOARD_HEIGHT -
        usizeOfI32 (g.current_shape.block_locs.l0.2 + g.current_shape.y)
    rw [hy, usizeOfI32_succ]
    exact wrap_row_step _ (usizeOfI32_lt _) hsub.1 hsub.2
  · simp only [hl, if_false] at h
    exact absurd h (by simp)

/-- `Game::drop`: hard drop — repeat `attempt_move(0, 1)` until it
fails. -/
def drop (g : Game) : Game :=
  if h : (g.attempt_move 0 1).2 = true then
    drop (g.attempt_move 0 1).1
  else
    g
termination_by dropMeasure g
decreasing_by exact attempt_move_down_measure g h

/-- `Game::process_input`: the keyboard handler.  `key = none` models
`virtual_keycode: None`; `pressed` is the `ElementState`.  `none` in the
result models the `unwrap` panic inside the hard-drop lock. -/
def process_input (g : Game) (key : Option Key) (pressed : Bool) :
    Option (Game × Bool) :=
  match key, pressed with
  | none, _ => some (g, false)
  | some k, true =>
    match k with
    | .left => some ((g.attempt_move (-1) 0).1, true)
    | .right => some ((g.attempt_move 1 0).1, true)
    | .down =>
      let g1 := g.drop
      (g1.current_shape.lock_to_gameboard g1.board).map
        (fun b => ({ g1 with board := b, shape_placed := true }, true))
    | .z => some ((g.attempt_rotate_ccw).1, true)
    | .x => some ((g.attempt_rotate_cw).1, true)
    | .other => some (g, false)
  | some _, false => some (g, false)

/-- The `if self.shape_placed` block of `Game::process_game_loop`: spawn
the next piece; on a blocked spawn report game over (leaving
`shape_placed` untouched), otherwise pick a new next shape, clear
completed rows, add `400 * rows` to the score and reset the flag. -/
def resolve_placement (g2 : Game) : Game × Bool :=
  if g2.shape_placed then
    let r := g2.spawn_next_shape
    if r.2 then
      let g4 := r.1.pick_next_shape
      let rc := g4.board.remove_completed_rows
      let g5 := ({ g4 with board := rc.1 } : Game).set_score (g4.score + 400 * rc.2)
      ({ g5 with shape_placed := false }, false)
    else
      (r.1, true)
  else
    (g2, false)

/-- `Game::process_game_loop`, with the elapsed wall-clock time since the
previous call as an explicit argument: accumulate the elapsed time, tick
at most once when the accumulator strictly exceeds the tick interval
(subtracting one interval), then run the placement-resolution block.
Returns the updated state and the game-over flag; `none` models the
`unwrap` panic inside `tick`. -/
def process_game_loop (g : Game) (elapsed : ℚ) : Option (Game × Bool) :=
  let g1 := { g with seconds_since_tick := g.seconds_since_tick + elapsed }
  (if g1.seconds_since_tick > g1.seconds_per_tick then
    g1.tick.map
      (fun h => { h with seconds_since_tick := h.seconds_since_tick - h.seconds_per_tick })
  else
    some g1).map resolve_placement

/-- `Game::render_background`: the six vertices of the board's dark
backdrop quad. -/
def render_background : List Vertex :=
  let ox : ℚ := (BLOCK_SIZE : ℚ) * (GAMEBOARD_OFFSET.1 : ℚ)
  let oy : ℚ := (BLOCK_SIZE : ℚ) * (GAMEBOARD_OFFSET.2 : ℚ)
  let w : ℚ := (BLOCK_SIZE : ℚ) * (GAMEBOARD_WIDTH : ℚ)
  let h : ℚ := (BLOCK_SIZE : ℚ) * (GAMEBOARD_HEIGHT : ℚ)
  let c : Color := ⟨1/5, 1/5, 1/5, 1/2⟩
  [⟨(ox, oy, -1), (0, 0), c⟩,
   ⟨(ox + w, oy, -1), ((GAMEBOARD_WIDTH : ℚ), 0), c⟩,
   ⟨(ox + w, oy + h, -1), ((GAMEBOARD_WIDTH : ℚ), (GAMEBOARD_HEIGHT : ℚ)), c⟩,
   ⟨(ox + w, oy + h, -1), ((GAMEBOARD_WIDTH : ℚ), (GAMEBOARD_HEIGHT : ℚ)), c⟩,
   ⟨(ox, oy + h, -1), (0, (GAMEBOARD_HEIGHT : ℚ)), c⟩,
   ⟨(ox, oy, -1), (0, 0), c⟩]

/-- `Game::render`: the fixed vertex layout — background slice `[0, 6)`,
board slice `[6, 1206)`, current piece `[1206, 1230)`, next piece
`[1230, 1254)`. -/
def render (g : Game) : List Vertex :=
  render_background ++ g.board.as_vertices ++
    g.current_shape.as_vertices ++ g.next_shape.as_vertices

end Game

/-! ## Helper lemmas -/

/-- `attempt_rotate_cw` characterised without the intermediate clone. -/
theorem Game.attempt_rotate_cw_eq (g : Game) :
    g.attempt_rotate_cw =
      if g.is_position_legal g.current_shape.rotate_cw then
        ({ g with current_shape := g.current_shape.rotate_cw }, true)
      else (g, false) := rfl

/-- `attempt_rotate_ccw` characterised without the intermediate clone. -/
theorem Game.attempt_rotate_ccw_eq (g : Game) :
    g.attempt_rotate_ccw =
      if g.is_position_legal g.current_shape.rotate_ccw then
        ({ g with current_shape := g.current_shape.rotate_ccw }, true)
      else (g, false) := rfl

/-- `is_position_legal` unfolded to its logical content: all four mapped
cells are in bounds and empty. -/
theorem Game.is_position_legal_iff (g : Game) (t : Tetromino) :
    g.is_position_legal t = true ↔
      ∀ p ∈ t.get_mapped_locs,
        (p.1 < GAMEBOARD_WIDTH ∧ p.2 < GAMEBOARD_HEIGHT) ∧
          g.board.getCell p.1 p.2 = none := by
  unfold Game.is_position_legal Game.is_shape_within_borders
    Game.does_shape_intersect_locked_blocks Gameboard.are_locs_empty
  simp only [Bool.and_eq_true, Bool.not_not, Bool.not_eq_true', Bool.not_eq_false,
    List.all_eq_true, decide_eq_true_eq, beq_iff_eq]
  constructor
  · intro h p hp
    exact ⟨h.1 p hp, h.2 p hp⟩
  · intro h
    exact ⟨fun p hp => (h p hp).1, fun p hp => (h p hp).2⟩

/-! ## Claim theorems -/

/-- **C1**: `is_position_legal` returns true iff every one of the piece's
four occupied board-local cells has `x < width` and `y < height` and none
of them is occupied in the board; any occupied cell at `x ≥ width` or
`y ≥ height` makes it false regardless of board content. -/
theorem is_position_legal_correct (g : Game) (t : Tetromino) :
    (g.is_position_legal t = true ↔
      ∀ p ∈ t.get_mapped_locs,
        (p.1 < GAMEBOARD_WIDTH ∧ p.2 < GAMEBOARD_HEIGHT) ∧
          g.board.getCell p.1 p.2 = none)
    ∧ (∀ p ∈ t.get_mapped_locs, GAMEBOARD_WIDTH ≤ p.1 ∨ GAMEBOARD_HEIGHT ≤ p.2 →
        g.is_position_legal t = false) := by
  refine ⟨g.is_position_legal_iff t, ?_⟩
  intro p hp hoob
  cases hleg : g.is_position_legal t
  · rfl
  · have hb := ((g.is_position_legal_iff t).mp hleg p hp).1
    unfold GAMEBOARD_WIDTH GAMEBOARD_HEIGHT at *
    omega

/-- Witness for C1: a T piece far left of the board offset is rejected on
the fresh board. -/
theorem is_position_legal_correct_witness :
    (Game.new []).is_position_legal (Tetromino.new_t.set_pos 5 5) = false :=
  (is_position_legal_correct (Game.new []) (Tetromino.new_t.set_pos 5 5)).2
    ((Tetromino.new_t.set_pos 5 5).mapLoc (1, 0)) (by decide) (by decide)

/-- **C2**: every movement or rotation attempt commits the transform to
the current piece exactly when the transformed candidate's position is
legal, leaves the whole state unchanged when it is not, and returns true
exactly when it committed. -/
theorem attempt_ops_atomic (g : Game) (x y : Int) :
    (((g.attempt_move x y).2 = true ↔
        g.is_position_legal (g.current_shape.add_pos x y) = true)
      ∧ ((g.attempt_move x y).2 = true →
          (g.attempt_move x y).1 =
            { g with current_shape := g.current_shape.add_pos x y })
      ∧ ((g.attempt_move x y).2 = false → (g.attempt_move x y).1 = g))
    ∧ ((g.attempt_rotate_cw.2 = true ↔
        g.is_position_legal g.current_shape.rotate_cw = true)
      ∧ (g.attempt_rotate_cw.2 = true →
          g.attempt_rotate_cw.1 = { g with current_shape := g.current_shape.rotate_cw })
      ∧ (g.attempt_rotate_cw.2 = false → g.attempt_rotate_cw.1 = g))
    ∧ ((g.attempt_rotate_ccw.2 = true ↔
        g.is_position_legal g.current_shape.rotate_ccw = true)
      ∧ (g.attempt_rotate_ccw.2 = true →
          g.attempt_rotate_ccw.1 = { g with current_shape := g.current_shape.rotate_ccw })
      ∧ (g.attempt_rotate_ccw.2 = false → g.attempt_rotate_ccw.1 = g)) := by
  simp only [Game.attempt_move_eq, Game.attempt_rotate_cw_eq, Game.attempt_rotate_ccw_eq]
  refine ⟨⟨?_, ?_, ?_⟩, ⟨?_, ?_, ?_⟩, ⟨?_, ?_, ?_⟩⟩ <;> split <;> simp_all

/-- Witness for C2: moving the fresh current piece one cell right
succeeds and commits exactly that translation. -/
theorem attempt_ops_atomic_witness :
    ((Game.new []).attempt_move 1 0).1 =
      { Game.new [] with current_shape := (Game.new []).current_shape.add_pos 1 0 } :=
  (attempt_ops_atomic (Game.new []) 1 0).1.2.1 (by decide)

/-- **C6**: `rotate_cw` maps each offset `(ox, oy)` to `(-oy, ox)`,
`rotate_ccw` maps it to `(oy, -ox)`; four applications of either
restore the offsets, and position and colour are unchanged. -/
theorem rotation_offsets_involution (t : Tetromino) :
    (t.rotate_cw.block_locs =
      ⟨(-t.block_locs.l0.2, t.block_locs.l0.1), (-t.block_locs.l1.2, t.block_locs.l1.1),
       (-t.block_locs.l2.2, t.block_locs.l2.1), (-t.block_locs.l3.2, t.block_locs.l3.1)⟩)
    ∧ (t.rotate_ccw.block_locs =
      ⟨(t.block_locs.l0.2, -t.block_locs.l0.1), (t.block_locs.l1.2, -t.block_locs.l1.1),
       (t.block_locs.l2.2, -t.block_locs.l2.1), (t.block_locs.l3.2, -t.block_locs.l3.1)⟩)
    ∧ t.rotate_cw.x = t.x ∧ t.rotate_cw.y = t.y ∧ t.rotate_cw.color = t.color
    ∧ t.rotate_ccw.x = t.x ∧ t.rotate_ccw.y = t.y ∧ t.rotate_ccw.color = t.color
    ∧ t.rotate_cw.rotate_cw.rotate_cw.rotate_cw = t
    ∧ t.rotate_ccw.rotate_ccw.rotate_ccw.rotate_ccw = t := by
  obtain ⟨x, y, c, ⟨⟨a0, b0⟩, ⟨a1, b1⟩, ⟨a2, b2⟩, ⟨a3, b3⟩⟩⟩ := t
  simp [Tetromino.rotate_cw, Tetromino.rotate_ccw]


theorem Tetromino.piece_vertices_length (t : Tetromino) : t.as_vertices.length = 24 := by
  simp [Tetromino.as_vertices, Tetromino.as_blocks, Tetromino.blockQuad]

theorem Gameboard.cellQuad_length (x y : Nat) (c : Option Color) :
    (Gameboard.cellQuad x y c).length = 6 := rfl

theorem Gameboard.board_vertices_length (gb : Gameboard) :
    gb.as_vertices.length = 6 * GAMEBOARD_WIDTH * GAMEBOARD_HEIGHT := by
  unfold Gameboard.as_vertices
  rw [List.length_flatten, List.map_map]
  have hrow : (List.length ∘ fun y =>
      (List.map (fun x => Gameboard.cellQuad x y (gb.getCell x y))
        (List.range GAMEBOARD_WIDTH)).flatten) = fun _ => 6 * GAMEBOARD_WIDTH := by
    funext y
    simp only [Function.comp_apply, List.length_flatten, List.map_map]
    have : (List.length ∘ fun x => Gameboard.cellQuad x y (gb.getCell x y)) =
        fun _ => 6 := by
      funext x
      simp [Gameboard.cellQuad_length]
    rw [this, List.map_const', List.sum_replicate, List.length_range]
    simp [Nat.mul_comm]
  rw [hrow, List.map_const', List.sum_replicate, List.length_range]
  simp [GAMEBOARD_WIDTH, GAMEBOARD_HEIGHT]

theorem Game.render_background_length : Game.render_background.length = 6 := rfl


/-- **C7**: `render` always returns exactly `6 + 6*width*height + 24 + 24
= 1254` vertex records, laid out as background, board cells, current
piece, next piece. -/
theorem render_layout (g : Game) :
    g.render.length = 6 + 6 * GAMEBOARD_WIDTH * GAMEBOARD_HEIGHT + 24 + 24
    ∧ g.render.take 6 = Game.render_background
    ∧ (g.render.drop 6).take (6 * GAMEBOARD_WIDTH * GAMEBOARD_HEIGHT) = g.board.as_vertices
    ∧ (g.render.drop 1206).take 24 = g.current_shape.as_vertices
    ∧ g.render.drop 1230 = g.next_shape.as_vertices := by
  have hbg : Game.render_background.length = 6 := rfl
  have hb := Gameboard.board_vertices_length g.board
  have hc := Tetromino.piece_vertices_length g.current_shape
  have hn := Tetromino.piece_vertices_length g.next_shape
  unfold Game.render
  refine ⟨?_, ?_, ?_, ?_, ?_⟩
  · simp [List.length_append, hbg, hb, hc, hn, GAMEBOARD_WIDTH, GAMEBOARD_HEIGHT]
  · rw [List.append_assoc, List.append_assoc, List.take_left' hbg]
  · rw [List.append_assoc, List.append_assoc, List.drop_left' hbg, List.take_left' hb]
  · rw [List.append_assoc, List.drop_left' (by rw [List.length_append, hbg, hb]; rfl),
      List.take_left' hc]
  · rw [List.drop_left' (by rw [List.length_append, List.length_append, hbg, hb, hc]; rfl)]


/-- `tick` characterised without the intermediate binding. -/
theorem Game.tick_eq (g : Game) :
    g.tick =
      if (g.attempt_move 0 1).2 then some (g.attempt_move 0 1).1
      else (g.current_shape.lock_to_gameboard g.board).map
        (fun b => { g with board := b, shape_placed := true }) := rfl

/-- `tick` never touches the timing fields, the score, or the next
shape. -/
theorem Game.tick_fields (g h : Game) (hh : g.tick = some h) :
    h.seconds_since_tick = g.seconds_since_tick ∧
    h.seconds_per_tick = g.seconds_per_tick ∧
    h.score = g.score ∧
    h.next_shape = g.next_shape ∧
    h.shape_placed = (g.shape_placed || !(g.attempt_move 0 1).2) := by
  rw [Game.tick_eq] at hh
  cases hmv : (g.attempt_move 0 1).2 with
  | true =>
    rw [hmv] at hh
    rw [if_pos rfl] at hh
    rw [Option.some.injEq] at hh
    subst hh
    rw [Game.attempt_move_eq] at hmv ⊢
    cases hl : g.is_position_legal (g.current_shape.add_pos 0 1) with
    | true => simp [hl]
    | false => rw [hl] at hmv; simp at hmv
  | false =>
    rw [hmv] at hh
    rw [if_neg (by simp)] at hh
    cases hlock : g.current_shape.lock_to_gameboard g.board with
    | none => rw [hlock] at hh; simp at hh
    | some b =>
      rw [hlock, Option.map_some'] at hh
      rw [Option.some.injEq] at hh
      subst hh
      simp [hmv]

/-- The placement-resolution step never touches the timing fields. -/
theorem Game.resolve_placement_timing (g2 : Game) :
    (g2.resolve_placement).1.seconds_since_tick = g2.seconds_since_tick ∧
    (g2.resolve_placement).1.seconds_per_tick = g2.seconds_per_tick := by
  unfold Game.resolve_placement
  cases hp : g2.shape_placed
  · simp only [Bool.false_eq_true, if_false]
    exact ⟨trivial, trivial⟩
  · simp only [if_true]
    cases hs : (g2.spawn_next_shape).2
    · simp only [Bool.false_eq_true, if_false]
      exact ⟨rfl, rfl⟩
    · simp only [if_true]
      exact ⟨rfl, rfl⟩


/-- `resolve_placement` is the identity step when no shape was placed. -/
theorem Game.resolve_placement_not_placed (g2 : Game) (hp : g2.shape_placed = false) :
    g2.resolve_placement = (g2, false) := by
  unfold Game.resolve_placement
  rw [hp]
  simp

/-- Legality depends only on the board and the shape. -/
theorem Game.is_position_legal_board (g1 g2 : Game) (hb : g1.board = g2.board)
    (t : Tetromino) : g1.is_position_legal t = g2.is_position_legal t := by
  unfold Game.is_position_legal Game.is_shape_within_borders
    Game.does_shape_intersect_locked_blocks
  rw [hb]


set_option maxRecDepth 20000 in
/-- **C3**: each call of `process_game_loop` performs at most one tick: a
tick fires only when the accumulated time strictly exceeds the 0.25 s
interval, exactly one interval is subtracted afterwards (the remainder is
preserved, even when more than two intervals have elapsed), and a firing
tick moves the unobstructed current piece down by exactly one unit. -/
theorem process_game_loop_single_tick (g : Game) (e : ℚ)
    (hspt : g.seconds_per_tick = 1/4) :
    (∀ g' r, g.process_game_loop e = some (g', r) →
      g'.seconds_since_tick =
        if g.seconds_since_tick + e > 1/4 then g.seconds_since_tick + e - 1/4
        else g.seconds_since_tick + e)
    ∧ (¬ g.seconds_since_tick + e > 1/4 → g.shape_placed = false →
        g.process_game_loop e =
          some ({ g with seconds_since_tick := g.seconds_since_tick + e }, false))
    ∧ (g.seconds_since_tick + e > 1/4 → g.shape_placed = false →
        (g.attempt_move 0 1).2 = true →
        g.process_game_loop e =
          some ({ g with
            current_shape := g.current_shape.add_pos 0 1,
            seconds_since_tick := g.seconds_since_tick + e - 1/4 }, false)) := by
  refine ⟨?_, ?_, ?_⟩
  · intro g' r hres
    simp only [Game.process_game_loop] at hres
    by_cases hc : g.seconds_since_tick + e > 1/4
    · rw [if_pos (by show g.seconds_since_tick + e > g.seconds_per_tick; rw [hspt]; exact hc)] at hres
      cases htick : ({ g with seconds_since_tick := g.seconds_since_tick + e } : Game).tick with
      | none => rw [htick] at hres; simp at hres
      | some h =>
        rw [htick, Option.map_some', Option.map_some', Option.some.injEq] at hres
        have ht := Game.tick_fields _ h htick
        have hr := Game.resolve_placement_timing
          ({ h with seconds_since_tick := h.seconds_since_tick - h.seconds_per_tick } : Game)
        have hg' : g' = (Game.resolve_placement
            { h with seconds_since_tick := h.seconds_since_tick - h.seconds_per_tick }).1 := by
          rw [hres]
        rw [if_pos hc, hg', hr.1]
        show h.seconds_since_tick - h.seconds_per_tick = g.seconds_since_tick + e - 1/4
        rw [ht.1, ht.2.1]
        show g.seconds_since_tick + e - g.seconds_per_tick = g.seconds_since_tick + e - 1/4
        rw [hspt]
    · rw [if_neg (by show ¬ g.seconds_since_tick + e > g.seconds_per_tick; rw [hspt]; exact hc)] at hres
      rw [Option.map_some', Option.some.injEq] at hres
      have hg' : g' = (Game.resolve_placement
          { g with seconds_since_tick := g.seconds_since_tick + e }).1 := by
        rw [hres]
      have hr := Game.resolve_placement_timing
        ({ g with seconds_since_tick := g.seconds_since_tick + e } : Game)
      rw [if_neg hc, hg', hr.1]
  · intro hcond hplaced
    simp only [Game.process_game_loop]
    rw [if_neg (by show ¬ g.seconds_since_tick + e > g.seconds_per_tick; rw [hspt]; exact hcond)]
    rw [Option.map_some']
    rw [Game.resolve_placement_not_placed]
    exact hplaced
  · intro hcond hplaced hmove
    have hlegG : g.is_position_legal (g.current_shape.add_pos 0 1) = true := by
      rw [Game.attempt_move_eq] at hmove
      by_cases hl : g.is_position_legal (g.current_shape.add_pos 0 1) = true
      · exact hl
      · rw [if_neg hl] at hmove
        simp at hmove
    have hcs : ({ g with seconds_since_tick := g.seconds_since_tick + e } : Game).current_shape
        = g.current_shape := rfl
    have htick : ({ g with seconds_since_tick := g.seconds_since_tick + e } : Game).tick =
        some ({ g with
          current_shape := g.current_shape.add_pos 0 1,
          seconds_since_tick := g.seconds_since_tick + e }) := by
      rw [Game.tick_eq]
      rw [Game.attempt_move_eq, hcs, Game.is_position_legal_board
        ({ g with seconds_since_tick := g.seconds_since_tick + e } : Game) g rfl, if_pos hlegG]
      rfl
    simp only [Game.process_game_loop]
    rw [if_pos (by show g.seconds_since_tick + e > g.seconds_per_tick; rw [hspt]; exact hcond)]
    rw [htick, Option.map_some', Option.map_some', Option.some.injEq]
    rw [Game.resolve_placement_not_placed]
    · rw [Prod.mk.injEq]
      refine ⟨?_, rfl⟩
      show ({ g with
        current_shape := g.current_shape.add_pos 0 1,
        seconds_since_tick := (g.seconds_since_tick + e) - g.seconds_per_tick } : Game) = _
      rw [hspt]
    · exact hplaced


/-- Neither branch of `attempt_move` changes any field other than the
current shape. -/
theorem Game.attempt_move_fst_fields (g : Game) (x y : Int) :
    (g.attempt_move x y).1.score = g.score ∧
    (g.attempt_move x y).1.board = g.board ∧
    (g.attempt_move x y).1.shape_placed = g.shape_placed ∧
    (g.attempt_move x y).1.next_shape = g.next_shape ∧
    (g.attempt_move x y).1.seconds_since_tick = g.seconds_since_tick ∧
    (g.attempt_move x y).1.seconds_per_tick = g.seconds_per_tick ∧
    (g.attempt_move x y).1.rng = g.rng ∧
    (g.attempt_move x y).1.next_shape_offset = g.next_shape_offset := by
  rw [Game.attempt_move_eq]
  split <;> exact ⟨rfl, rfl, rfl, rfl, rfl, rfl, rfl, rfl⟩

/-- `drop` changes nothing but the current shape. -/
theorem Game.drop_fields (g : Game) :
    g.drop.score = g.score ∧
    g.drop.board = g.board ∧
    g.drop.shape_placed = g.shape_placed ∧
    g.drop.next_shape = g.next_shape ∧
    g.drop.seconds_since_tick = g.seconds_since_tick ∧
    g.drop.seconds_per_tick = g.seconds_per_tick ∧
    g.drop.rng = g.rng ∧
    g.drop.next_shape_offset = g.next_shape_offset := by
  induction g using Game.drop.induct with
  | case1 x hmv ih =>
    rw [Game.drop, dif_pos hmv]
    have ha := Game.attempt_move_fst_fields x 0 1
    exact ⟨ih.1.trans ha.1, ih.2.1.trans ha.2.1, ih.2.2.1.trans ha.2.2.1,
      ih.2.2.2.1.trans ha.2.2.2.1, ih.2.2.2.2.1.trans ha.2.2.2.2.1,
      ih.2.2.2.2.2.1.trans ha.2.2.2.2.2.1, ih.2.2.2.2.2.2.1.trans ha.2.2.2.2.2.2.1,
      ih.2.2.2.2.2.2.2.trans ha.2.2.2.2.2.2.2⟩
  | case2 x hmv =>
    rw [Game.drop, dif_neg hmv]
    exact ⟨rfl, rfl, rfl, rfl, rfl, rfl, rfl, rfl⟩

/-- The placement-resolution step adds `400 * k` to the score for some
`k` (the number of completed rows removed, or 0). -/
theorem Game.resolve_placement_score (g2 : Game) :
    ∃ k, (g2.resolve_placement).1.score = g2.score + 400 * k := by
  unfold Game.resolve_placement
  cases hp : g2.shape_placed
  · simp only [Bool.false_eq_true, if_false]
    exact ⟨0, rfl⟩
  · simp only [if_true]
    cases hs : (g2.spawn_next_shape).2
    · simp only [Bool.false_eq_true, if_false]
      exact ⟨0, rfl⟩
    · simp only [if_true]
      exact ⟨(g2.spawn_next_shape).1.pick_next_shape.board.remove_completed_rows.2, rfl⟩


/-- `attempt_rotate_cw` never changes the score. -/
theorem Game.attempt_rotate_cw_fst_score (g : Game) :
    g.attempt_rotate_cw.1.score = g.score := by
  rw [Game.attempt_rotate_cw_eq]
  split <;> rfl

/-- `attempt_rotate_ccw` never changes the score. -/
theorem Game.attempt_rotate_ccw_fst_score (g : Game) :
    g.attempt_rotate_ccw.1.score = g.score := by
  rw [Game.attempt_rotate_ccw_eq]
  split <;> rfl

set_option maxRecDepth 20000 in
/-- **C5** (amended): every post-placement resolution step that clears
`r` rows (`r` the count returned by `remove_completed_rows` on the
board being resolved) adds exactly `400 * r` to the score, a resolution
step that does not run its scoring branch (flag unset, or spawn
blocked) leaves the score unchanged, every successful
`process_game_loop` call is exactly such a resolution step applied to
an intermediate state with the caller's score, and no input-handling or
tick operation changes the score — so the score never decreases across
the game-loop and input operations.  The public `set_score` setter is
excluded: it stores its argument unconditionally and can lower the
score. -/
theorem score_monotone_amended :
    (∀ g2 : Game, g2.shape_placed = true → (g2.spawn_next_shape).2 = true →
      (g2.resolve_placement).1.score =
        g2.score + 400 * (g2.board.remove_completed_rows).2)
    ∧ (∀ g2 : Game, g2.shape_placed = false ∨ (g2.spawn_next_shape).2 = false →
      (g2.resolve_placement).1.score = g2.score)
    ∧ (∀ (g : Game) (e : ℚ) (g' : Game) (r : Bool),
        g.process_game_loop e = some (g', r) →
        ∃ g2 : Game, g2.score = g.score ∧ g' = (g2.resolve_placement).1)
    ∧ (∀ (g : Game) (key : Option Key) (pressed : Bool) (g' : Game) (b : Bool),
        g.process_input key pressed = some (g', b) → g'.score = g.score)
    ∧ (∀ g h : Game, g.tick = some h → h.score = g.score) := by
  refine ⟨?_, ?_, ?_, ?_, ?_⟩
  · intro g2 hp hs
    simp only [Game.resolve_placement, hp, hs]
    rfl
  · intro g2 hor
    rcases hor with hp | hs
    · rw [Game.resolve_placement_not_placed g2 hp]
    · cases hp : g2.shape_placed
      · rw [Game.resolve_placement_not_placed g2 hp]
      · simp only [Game.resolve_placement, hp, hs]
        rfl
  · intro g e g' r hres
    simp only [Game.process_game_loop] at hres
    by_cases hc : ({ g with seconds_since_tick := g.seconds_since_tick + e } : Game).seconds_since_tick >
        ({ g with seconds_since_tick := g.seconds_since_tick + e } : Game).seconds_per_tick
    · rw [if_pos hc] at hres
      cases htick : ({ g with seconds_since_tick := g.seconds_since_tick + e } : Game).tick with
      | none => rw [htick] at hres; simp at hres
      | some h =>
        rw [htick, Option.map_some', Option.map_some', Option.some.injEq] at hres
        refine ⟨{ h with seconds_since_tick := h.seconds_since_tick - h.seconds_per_tick }, ?_, ?_⟩
        · show h.score = g.score
          rw [(Game.tick_fields _ h htick).2.2.1]
        · exact (congrArg Prod.fst hres).symm
    · rw [if_neg hc, Option.map_some', Option.some.injEq] at hres
      exact ⟨{ g with seconds_since_tick := g.seconds_since_tick + e }, rfl,
        (congrArg Prod.fst hres).symm⟩
  · intro g key pressed g' b hres
    cases key with
    | none =>
      simp only [Game.process_input, Option.some.injEq, Prod.mk.injEq] at hres
      rw [← hres.1]
    | some k =>
      cases pressed with
      | false =>
        simp only [Game.process_input, Option.some.injEq, Prod.mk.injEq] at hres
        rw [← hres.1]
      | true =>
        cases k with
        | left =>
          simp only [Game.process_input, Option.some.injEq, Prod.mk.injEq] at hres
          rw [← hres.1]
          exact (Game.attempt_move_fst_fields g (-1) 0).1
        | right =>
          simp only [Game.process_input, Option.some.injEq, Prod.mk.injEq] at hres
          rw [← hres.1]
          exact (Game.attempt_move_fst_fields g 1 0).1
        | z =>
          simp only [Game.process_input, Option.some.injEq, Prod.mk.injEq] at hres
          rw [← hres.1]
          exact Game.attempt_rotate_ccw_fst_score g
        | x =>
          simp only [Game.process_input, Option.some.injEq, Prod.mk.injEq] at hres
          rw [← hres.1]
          exact Game.attempt_rotate_cw_fst_score g
        | down =>
          simp only [Game.process_input] at hres
          cases hlock : g.drop.current_shape.lock_to_gameboard g.drop.board with
          | none => rw [hlock] at hres; simp at hres
          | some bd =>
            rw [hlock, Option.map_some', Option.some.injEq, Prod.mk.injEq] at hres
            rw [← hres.1]
            show g.drop.score = g.score
            exact (Game.drop_fields g).1
        | other =>
          simp only [Game.process_input, Option.some.injEq, Prod.mk.injEq] at hres
          rw [← hres.1]
  · intro g h hh
    exact (Game.tick_fields g h hh).2.2.1

/-- Witness for C5: rotating via the key handler on a fresh game leaves
the score unchanged. -/
theorem score_monotone_amended_witness :
    ((Game.new []).process_input (some Key.z) true).map (fun r => r.1.score) =
      some (Game.new []).score := by
  have h : (Game.new []).process_input (some Key.z) true =
      some (((Game.new []).attempt_rotate_ccw).1, true) := rfl
  rw [h, Option.map_some']
  exact congrArg some (score_monotone_amended.2.2.2.1 (Game.new []) (some Key.z) true _ true h)

/-- Counterexample for C5: `set_score` is a public engine operation and
stores its argument unconditionally, so a sequence of engine operations
can decrease the score. -/
theorem set_score_can_decrease :
    (((Game.new []).set_score 400).set_score 0).score <
      ((Game.new []).set_score 400).score := by
  decide


/-- Witness for C3: on a fresh engine, an update of 0.3 s fires exactly
one tick and the current piece moves down by one unit, with the 0.05 s
remainder preserved. -/
theorem process_game_loop_single_tick_witness :
    (Game.new []).process_game_loop (3/10) =
      some ({ Game.new [] with
        current_shape := (Game.new []).current_shape.add_pos 0 1,
        seconds_since_tick := (Game.new []).seconds_since_tick + 3/10 - 1/4 }, false) :=
  (process_game_loop_single_tick (Game.new []) (3/10) rfl).2.2
    (by show (0:ℚ) + 3/10 > 1/4; norm_num) rfl (by decide)


/-- The placement-resolution step on a blocked spawn: report game over,
returning the mutated state. -/
theorem Game.resolve_placement_gameover (g2 : Game) (hp : g2.shape_placed = true)
    (hs : (g2.spawn_next_shape).2 = false) :
    g2.resolve_placement = ((g2.spawn_next_shape).1, true) := by
  simp only [Game.resolve_placement, hp, hs]
  simp

/-- The colour used to pre-fill cells in the game-over scenario. -/
def redC : Color := ⟨1, 0, 0, 1⟩

/-- A board whose cells (5,1) and (5,3) are occupied, blocking both the
spawn cell of an O piece at the spawn location and its downward move. -/
def blockedBoard : Gameboard :=
  ⟨((List.replicate GAMEBOARD_HEIGHT (List.replicate GAMEBOARD_WIDTH (none : Option Color))).set 1
      ((List.replicate GAMEBOARD_WIDTH (none : Option Color)).set 5 (some redC))).set 3
      ((List.replicate GAMEBOARD_WIDTH (none : Option Color)).set 5 (some redC))⟩

/-- A game state whose previous tick placed a piece and whose next shape
(an O) cannot legally spawn. -/
def g0blocked : Game :=
  { score := 0
    board := blockedBoard
    next_shape := Tetromino.new_o.set_pos 30 7
    current_shape := Tetromino.new_t.set_pos 20 2
    next_shape_offset := (30, 7)
    seconds_per_tick := 1/4
    seconds_since_tick := 0
    shape_placed := true
    rng := [] }

/-- `g0blocked` after the loop has accumulated zero elapsed time. -/
def g1accum : Game :=
  { g0blocked with seconds_since_tick := g0blocked.seconds_since_tick + 0 }

/-- The state returned with the game-over flag: the blocked O piece has
already been moved into `current_shape` at the spawn location. -/
def gOverState : Game := (g1accum.spawn_next_shape).1

/-- The board after the post-game-over tick locks the blocked O piece. -/
def lockedBoard : Gameboard :=
  (gOverState.current_shape.lock_to_gameboard gOverState.board).getD Gameboard.new

/-- **C4** (code bug): a blocked spawn makes `process_game_loop` return
the game-over flag, but nothing latches this state: the engine keeps the
`shape_placed` flag set and keeps ticking, and the very next update call
locks the blocked piece into the board again, mutating it.  The claimed
"further update/key calls produce no further board mutation" does not
hold. -/
theorem gameover_not_latched :
    ∃ gOv : Game, g0blocked.process_game_loop 0 = some (gOv, true) ∧
      ∃ g2 : Game, gOv.process_game_loop (3/10) = some (g2, true) ∧
        g2.board ≠ gOv.board := by
  refine ⟨gOverState, ?_, ?_⟩
  · simp only [Game.process_game_loop]
    rw [if_neg (show ¬ g0blocked.seconds_since_tick + 0 > g0blocked.seconds_per_tick by
      show ¬ (0:ℚ) + 0 > 1/4; norm_num)]
    rw [Option.map_some']
    rw [Game.resolve_placement_gameover _ rfl (by decide)]
    rfl
  · simp only [Game.process_game_loop]
    rw [if_pos (show gOverState.seconds_since_tick + 3/10 > gOverState.seconds_per_tick by
      show (0:ℚ) + 0 + 3/10 > 1/4; norm_num)]
    rw [Game.tick_eq]
    rw [if_neg (by decide)]
    have hlock : ({ gOverState with
        seconds_since_tick := gOverState.seconds_since_tick + 3/10 } : Game).current_shape.lock_to_gameboard
        ({ gOverState with
          seconds_since_tick := gOverState.seconds_since_tick + 3/10 } : Game).board = some lockedBoard := by
      decide
    rw [hlock, Option.map_some', Option.map_some', Option.map_some']
    rw [Game.resolve_placement_gameover _ rfl (by decide)]
    exact ⟨_, rfl, by decide⟩


/-- A game-over result of the placement-resolution step leaves the
placed flag set. -/
theorem Game.resolve_placement_true (g2 g' : Game)
    (h : g2.resolve_placement = (g', true)) : g'.shape_placed = true := by
  cases hp : g2.shape_placed
  · rw [Game.resolve_placement_not_placed g2 hp] at h
    exact absurd (congrArg Prod.snd h) (by simp)
  · cases hs : (g2.spawn_next_shape).2
    · rw [Game.resolve_placement_gameover g2 hp hs] at h
      have := congrArg Prod.fst h
      simp only at this
      rw [← this]
      exact hp
    · simp only [Game.resolve_placement, hp, hs, if_true] at h
      exact absurd (congrArg Prod.snd h) (by simp)

set_option maxRecDepth 40000 in
/-- **C9**: `spawn_next_shape` mutates the engine state before its
legality check — the current piece is replaced by the next piece
repositioned to the spawn location whether or not the spawn is legal —
and a game-over return of `process_game_loop` leaves the placed flag
set: a failed spawn is not atomic with respect to engine state. -/
theorem spawn_next_shape_not_atomic (g : Game) (e : ℚ) :
    ((g.spawn_next_shape).1.current_shape =
      g.next_shape.set_pos ((g.board.get_spawn_loc).1 : Int) ((g.board.get_spawn_loc).2 : Int))
    ∧ (g.spawn_next_shape).1.board = g.board
    ∧ (g.spawn_next_shape).1.next_shape = g.next_shape
    ∧ (g.spawn_next_shape).1.score = g.score
    ∧ (g.spawn_next_shape).1.shape_placed = g.shape_placed
    ∧ (g.spawn_next_shape).2 =
        (g.spawn_next_shape).1.is_position_legal (g.spawn_next_shape).1.current_shape
    ∧ (∀ g' : Game, g.process_game_loop e = some (g', true) → g'.shape_placed = true) := by
  refine ⟨rfl, rfl, rfl, rfl, rfl, by simp only [Game.spawn_next_shape], ?_⟩
  intro g' hres
  simp only [Game.process_game_loop] at hres
  by_cases hc : ({ g with seconds_since_tick := g.seconds_since_tick + e } : Game).seconds_since_tick >
      ({ g with seconds_since_tick := g.seconds_since_tick + e } : Game).seconds_per_tick
  · rw [if_pos hc] at hres
    cases htick : ({ g with seconds_since_tick := g.seconds_since_tick + e } : Game).tick with
    | none => rw [htick] at hres; simp at hres
    | some h =>
      rw [htick, Option.map_some', Option.map_some', Option.some.injEq] at hres
      exact Game.resolve_placement_true _ _ hres
  · rw [if_neg hc, Option.map_some', Option.some.injEq] at hres
    exact Game.resolve_placement_true _ _ hres

/-- Witness for C9: in the blocked-spawn scenario the game-over return
leaves the placed flag set. -/
theorem spawn_next_shape_not_atomic_witness : gOverState.shape_placed = true :=
  (spawn_next_shape_not_atomic g0blocked 0).2.2.2.2.2.2 gOverState (by
    simp only [Game.process_game_loop]
    rw [if_neg (show ¬ g0blocked.seconds_since_tick + 0 > g0blocked.seconds_per_tick by
      show ¬ (0:ℚ) + 0 > 1/4; norm_num)]
    rw [Option.map_some']
    rw [Game.resolve_placement_gameover _ rfl (by decide)]
    rfl)

theorem wrap_oob_x (v : Int) (hlo : -(2^31) ≤ v) (hv : v < 15) :
    GAMEBOARD_WIDTH ≤ usizeSub (usizeOfI32 v) 15 := by
  unfold usizeSub usizeOfI32 USIZE_MOD GAMEBOARD_WIDTH at *
  omega

theorem wrap_oob_y (v : Int) (hlo : -(2^31) ≤ v) (hv : v < 1) :
    GAMEBOARD_HEIGHT ≤ usizeSub (usizeOfI32 v) 1 := by
  unfold usizeSub usizeOfI32 USIZE_MOD GAMEBOARD_HEIGHT at *
  omega

/-- **C10**: for a piece with a block whose global coordinate is left of
or above the board offset `(15, 1)`, the `usize` cast and wrapping
subtraction in `get_mapped_locs` produce a board-local coordinate at
least the board width (resp. height), so `is_shape_within_borders`
rejects the piece: left/top rejection relies on unsigned wraparound. -/
theorem get_mapped_locs_wraparound (g : Game) (t : Tetromino)
    (hrange : ∀ l ∈ [t.block_locs.l0, t.block_locs.l1, t.block_locs.l2, t.block_locs.l3],
      -(2^31) ≤ l.1 + t.x ∧ l.1 + t.x < 2^31 ∧ -(2^31) ≤ l.2 + t.y ∧ l.2 + t.y < 2^31)
    (hoob : ∃ l ∈ [t.block_locs.l0, t.block_locs.l1, t.block_locs.l2, t.block_locs.l3],
      l.1 + t.x < (GAMEBOARD_OFFSET.1 : Int) ∨ l.2 + t.y < (GAMEBOARD_OFFSET.2 : Int)) :
    (∀ l ∈ [t.block_locs.l0, t.block_locs.l1, t.block_locs.l2, t.block_locs.l3],
      (l.1 + t.x < (GAMEBOARD_OFFSET.1 : Int) → GAMEBOARD_WIDTH ≤ (t.mapLoc l).1)
      ∧ (l.2 + t.y < (GAMEBOARD_OFFSET.2 : Int) → GAMEBOARD_HEIGHT ≤ (t.mapLoc l).2))
    ∧ g.is_shape_within_borders t = false := by
  have hmain : ∀ l ∈ [t.block_locs.l0, t.block_locs.l1, t.block_locs.l2, t.block_locs.l3],
      (l.1 + t.x < (GAMEBOARD_OFFSET.1 : Int) → GAMEBOARD_WIDTH ≤ (t.mapLoc l).1)
      ∧ (l.2 + t.y < (GAMEBOARD_OFFSET.2 : Int) → GAMEBOARD_HEIGHT ≤ (t.mapLoc l).2) := by
    intro l hl
    exact ⟨fun hx => wrap_oob_x _ (hrange l hl).1 hx,
      fun hy => wrap_oob_y _ (hrange l hl).2.2.1 hy⟩
  refine ⟨hmain, ?_⟩
  obtain ⟨l, hl, hx⟩ := hoob
  cases hw : g.is_shape_within_borders t
  · rfl
  · exfalso
    unfold Game.is_shape_within_borders at hw
    rw [List.all_eq_true] at hw
    have hmem : t.mapLoc l ∈ t.get_mapped_locs := by
      unfold Tetromino.get_mapped_locs
      simp only [List.mem_cons, List.not_mem_nil, or_false, List.mem_singleton] at hl
      rcases hl with h | h | h | h <;> rw [h] <;> simp
    have hb := hw _ hmem
    simp only [Bool.and_eq_true, decide_eq_true_eq] at hb
    cases hx with
    | inl hxl =>
      have := (hmain l hl).1 hxl
      unfold GAMEBOARD_WIDTH at *
      omega
    | inr hyl =>
      have := (hmain l hl).2 hyl
      unfold GAMEBOARD_HEIGHT at *
      omega

/-- Witness for C10: a T piece at the global origin is far left of the
board offset and is rejected through the wraparound. -/
theorem get_mapped_locs_wraparound_witness :
    (Game.new []).is_shape_within_borders (Tetromino.new_t.set_pos 0 5) = false :=
  (get_mapped_locs_wraparound (Game.new []) (Tetromino.new_t.set_pos 0 5)
    (by decide) ⟨(1, 0), by decide, by decide⟩).2


/-- Modelled from the spec: the board-dimension invariant — "grid
dimensions are immutable after construction; every cell index is in
`[0, width) × [0, height)`". -/
abbrev Gameboard.WF (gb : Gameboard) : Prop :=
  gb.cells.length = GAMEBOARD_HEIGHT ∧ ∀ row ∈ gb.cells, row.length = GAMEBOARD_WIDTH

theorem Gameboard.WF_set (gb : Gameboard) (hwf : gb.WF) (x y : Nat) (c : Option Color)
    (hy : y < GAMEBOARD_HEIGHT) :
    (⟨gb.cells.set y ((gb.cells.getD y []).set x c)⟩ : Gameboard).WF := by
  obtain ⟨hlen, hrows⟩ := hwf
  refine ⟨by rw [List.length_set]; exact hlen, ?_⟩
  intro row hrow
  rcases List.mem_or_eq_of_mem_set hrow with h | h
  · exact hrows row h
  · have hylen : y < gb.cells.length := by omega
    rw [h, List.length_set]
    refine hrows _ ?_
    rw [List.getD_eq_getElem?_getD, List.getElem?_eq_getElem hylen]
    exact List.getElem_mem hylen

theorem Gameboard.getCell_set (gb : Gameboard) (hwf : gb.WF) (x y : Nat) (c : Option Color)
    (hx : x < GAMEBOARD_WIDTH) (hy : y < GAMEBOARD_HEIGHT) (x' y' : Nat) :
    (⟨gb.cells.set y ((gb.cells.getD y []).set x c)⟩ : Gameboard).getCell x' y' =
      if x' = x ∧ y' = y then c else gb.getCell x' y' := by
  obtain ⟨hlen, hrows⟩ := hwf
  have hylen : y < gb.cells.length := by omega
  have hrowlen : (gb.cells.getD y []).length = GAMEBOARD_WIDTH := by
    refine hrows _ ?_
    rw [List.getD_eq_getElem?_getD, List.getElem?_eq_getElem hylen]
    exact List.getElem_mem hylen
  unfold Gameboard.getCell
  by_cases hy' : y' = y
  · subst hy'
    rw [List.getD_eq_getElem?_getD (gb.cells.set y' ((gb.cells.getD y' []).set x c)),
      List.getElem?_set, if_pos rfl, if_pos hylen]
    by_cases hx' : x' = x
    · subst hx'
      rw [if_pos ⟨rfl, rfl⟩]
      show ((gb.cells.getD y' []).set x' c).getD x' none = c
      rw [List.getD_eq_getElem?_getD, List.getElem?_set, if_pos rfl,
        if_pos (by omega : x' < (gb.cells.getD y' []).length)]
      rfl
    · rw [if_neg (fun hh => hx' hh.1)]
      show ((gb.cells.getD y' []).set x c).getD x' none = (gb.cells.getD y' []).getD x' none
      rw [List.getD_eq_getElem?_getD, List.getElem?_set, if_neg (fun hh => hx' hh.symm)]
      simp only [List.getD_eq_getElem?_getD]
  · rw [if_neg (fun hh => hy' hh.2)]
    rw [List.getD_eq_getElem?_getD (gb.cells.set y ((gb.cells.getD y []).set x c)),
      List.getElem?_set, if_neg (fun hh => hy' hh.symm)]
    simp only [List.getD_eq_getElem?_getD]

theorem Gameboard.write_ok (gb : Gameboard) (hwf : gb.WF) (x y : Nat) (c : Option Color)
    (hx : x < GAMEBOARD_WIDTH) (hy : y < GAMEBOARD_HEIGHT) :
    ∃ gb', (gb.set_content x y c).toOption = some gb' ∧ gb'.WF ∧
      ∀ x' y', gb'.getCell x' y' = if x' = x ∧ y' = y then c else gb.getCell x' y' := by
  refine ⟨⟨gb.cells.set y ((gb.cells.getD y []).set x c)⟩, ?_,
    Gameboard.WF_set gb hwf x y c hy, Gameboard.getCell_set gb hwf x y c hx hy⟩
  unfold Gameboard.set_content
  rw [if_pos ⟨hx, hy⟩]
  rfl

theorem Gameboard.write_err (gb : Gameboard) (x y : Nat) (c : Option Color)
    (h : GAMEBOARD_WIDTH ≤ x ∨ GAMEBOARD_HEIGHT ≤ y) :
    (gb.set_content x y c).toOption = none := by
  unfold Gameboard.set_content
  rw [if_neg (by omega)]
  rfl

theorem usizeOfI32_sub_ofNat (v : Int) (k : Nat) (hk : k < USIZE_MOD) :
    usizeOfI32 (v - (k : Int)) = usizeSub (usizeOfI32 v) k := by
  unfold usizeOfI32 usizeSub USIZE_MOD at *
  omega

/-- Each write of `lock_to_gameboard` targets exactly the corresponding
`get_mapped_locs` cell: subtract-then-cast equals cast-then-wrapping-
subtract, modulo `2^64`. -/
theorem Tetromino.lockWrite_eq (t : Tetromino) (b : Gameboard) (l : Int × Int) :
    t.lockWrite b l =
      (b.set_content (t.mapLoc l).1 (t.mapLoc l).2 (some t.color)).toOption := by
  unfold Tetromino.lockWrite Tetromino.mapLoc
  rw [usizeOfI32_sub_ofNat _ _ (by norm_num [GAMEBOARD_OFFSET, USIZE_MOD]),
    usizeOfI32_sub_ofNat _ _ (by norm_num [GAMEBOARD_OFFSET, USIZE_MOD])]


set_option maxRecDepth 20000 in
/-- **C8**: `lock_to_gameboard` writes the piece's colour into the board
at each of its four occupied board-local cells; when any target cell is
out of bounds the operation fails with the explicit out-of-bounds error
propagated from the board's `set_cell` (modelled as `none`, the `unwrap`
panic) — it never silently corrupts the board or wraps into an in-bounds
write. -/
theorem lock_to_gameboard_spec (t : Tetromino) (gb : Gameboard) (hwf : gb.WF) :
    ((∀ p ∈ t.get_mapped_locs, p.1 < GAMEBOARD_WIDTH ∧ p.2 < GAMEBOARD_HEIGHT) →
      ∃ gb', t.lock_to_gameboard gb = some gb' ∧ gb'.WF ∧
        ∀ p ∈ t.get_mapped_locs, gb'.getCell p.1 p.2 = some t.color)
    ∧ ((∃ p ∈ t.get_mapped_locs, GAMEBOARD_WIDTH ≤ p.1 ∨ GAMEBOARD_HEIGHT ≤ p.2) →
      t.lock_to_gameboard gb = none) := by
  constructor
  · intro hin
    simp only [Tetromino.get_mapped_locs, List.forall_mem_cons] at hin
    obtain ⟨h0, h1, h2, h3, -⟩ := hin
    obtain ⟨b0, hw0, hwf0, hg0⟩ := Gameboard.write_ok gb hwf _ _ (some t.color) h0.1 h0.2
    obtain ⟨b1, hw1, hwf1, hg1⟩ := Gameboard.write_ok b0 hwf0 _ _ (some t.color) h1.1 h1.2
    obtain ⟨b2, hw2, hwf2, hg2⟩ := Gameboard.write_ok b1 hwf1 _ _ (some t.color) h2.1 h2.2
    obtain ⟨b3, hw3, hwf3, hg3⟩ := Gameboard.write_ok b2 hwf2 _ _ (some t.color) h3.1 h3.2
    refine ⟨b3, ?_, hwf3, ?_⟩
    · unfold Tetromino.lock_to_gameboard
      rw [Tetromino.lockWrite_eq, hw0, Option.some_bind]
      rw [Tetromino.lockWrite_eq, hw1, Option.some_bind]
      rw [Tetromino.lockWrite_eq, hw2, Option.some_bind]
      rw [Tetromino.lockWrite_eq, hw3]
    · simp only [Tetromino.get_mapped_locs, List.forall_mem_cons]
      refine ⟨?_, ?_, ?_, ?_, by intro x hx; cases hx⟩ <;>
        (rw [hg3, hg2, hg1, hg0]; split_ifs <;>
          first | rfl | simp_all only [eq_self_iff_true, and_self, not_true])
  · intro hex
    obtain ⟨p, hp, hoob⟩ := hex
    simp only [Tetromino.get_mapped_locs, List.mem_cons, List.not_mem_nil, or_false] at hp
    unfold Tetromino.lock_to_gameboard
    rcases hp with h | h | h | h
    · subst h
      rw [Tetromino.lockWrite_eq, Gameboard.write_err gb _ _ _ hoob]
      rw [Option.none_bind, Option.none_bind, Option.none_bind]
    · rw [Tetromino.lockWrite_eq]
      cases hA : (gb.set_content (t.mapLoc t.block_locs.l0).1 (t.mapLoc t.block_locs.l0).2
          (some t.color)).toOption with
      | none => rw [Option.none_bind, Option.none_bind, Option.none_bind]
      | some b0 =>
        subst h
        rw [Option.some_bind, Tetromino.lockWrite_eq,
          Gameboard.write_err b0 _ _ _ hoob, Option.none_bind, Option.none_bind]
    · rw [Tetromino.lockWrite_eq]
      cases hA : (gb.set_content (t.mapLoc t.block_locs.l0).1 (t.mapLoc t.block_locs.l0).2
          (some t.color)).toOption with
      | none => rw [Option.none_bind, Option.none_bind, Option.none_bind]
      | some b0 =>
        rw [Option.some_bind, Tetromino.lockWrite_eq]
        cases hB : (b0.set_content (t.mapLoc t.block_locs.l1).1 (t.mapLoc t.block_locs.l1).2
            (some t.color)).toOption with
        | none => rw [Option.none_bind, Option.none_bind]
        | some b1 =>
          subst h
          rw [Option.some_bind, Tetromino.lockWrite_eq,
            Gameboard.write_err b1 _ _ _ hoob, Option.none_bind]
    · rw [Tetromino.lockWrite_eq]
      cases hA : (gb.set_content (t.mapLoc t.block_locs.l0).1 (t.mapLoc t.block_locs.l0).2
          (some t.color)).toOption with
      | none => rw [Option.none_bind, Option.none_bind, Option.none_bind]
      | some b0 =>
        rw [Option.some_bind, Tetromino.lockWrite_eq]
        cases hB : (b0.set_content (t.mapLoc t.block_locs.l1).1 (t.mapLoc t.block_locs.l1).2
            (some t.color)).toOption with
        | none => rw [Option.none_bind, Option.none_bind]
        | some b1 =>
          rw [Option.some_bind, Tetromino.lockWrite_eq]
          cases hC : (b1.set_content (t.mapLoc t.block_locs.l2).1 (t.mapLoc t.block_locs.l2).2
              (some t.color)).toOption with
          | none => rw [Option.none_bind]
          | some b2 =>
            subst h
            rw [Option.some_bind, Tetromino.lockWrite_eq]
            exact Gameboard.write_err b2 _ _ _ hoob

/-- Witness for C8: locking an O piece at the spawn location into the
fresh board succeeds and colours its four cells. -/
theorem lock_to_gameboard_spec_witness :
    ∃ gb', (Tetromino.new_o.set_pos 20 2).lock_to_gameboard Gameboard.new = some gb' ∧
      gb'.WF ∧ ∀ p ∈ (Tetromino.new_o.set_pos 20 2).get_mapped_locs,
        gb'.getCell p.1 p.2 = some (Tetromino.new_o.set_pos 20 2).color :=
  (lock_to_gameboard_spec (Tetromino.new_o.set_pos 20 2) Gameboard.new (by decide)).1
    (by decide)

end Wgputris
